import Mathlib

/-!
Verification of the libopus.js binding layer (lib/encoder.js, lib/decoder.js,
lib/utils.js) against its natural-language specification.

The binding marshals data between JavaScript and a foreign (emscripten) heap.
We embed the foreign heap as a byte map together with an allocation list and a
bump pointer, and translate the binding functions directly from the source.
The opus engine itself (build/libopus.js, compiled from the opus C library) is
an external collaborator reachable only through its function table; engine
functions are therefore parameters of the embedded binding functions, exactly
as `doDecode` is a parameter of `Decoder.prototype._decode` in the source.
-/

namespace Libopus

/-- The foreign (emscripten) heap: a byte store (`HEAPU8`), the list of
currently allocated blocks as (address, size) pairs, and a bump pointer used
by `_malloc`. -/
structure Mem where
  heap : Nat → Nat
  allocated : List (Nat × Nat)
  nextFree : Nat

/-- Well-formedness: every allocated block starts below the bump pointer,
so a fresh allocation never reuses a live address. -/
def Mem.wf (m : Mem) : Prop :=
  ∀ b ∈ m.allocated, b.1 < m.nextFree

instance (m : Mem) : Decidable m.wf := by
  unfold Mem.wf; infer_instance

/-- `libopus._malloc`: returns a fresh address and records the block. -/
def malloc (n : Nat) (m : Mem) : Nat × Mem :=
  (m.nextFree,
   { m with allocated := (m.nextFree, n) :: m.allocated,
            nextFree := m.nextFree + n + 1 })

/-- `libopus._free`: releases the block at address `p`. -/
def free (p : Nat) (m : Mem) : Mem :=
  { m with allocated := m.allocated.filter (fun b => b.1 != p) }

/-- Write one byte. -/
def setByte (m : Mem) (i v : Nat) : Mem :=
  { m with heap := fun j => if j = i then v else m.heap j }

/-- `HEAPU8.set(data, p)`: write a run of bytes starting at `p`. -/
def heapSet (m : Mem) (p : Nat) : List Nat → Mem
  | [] => m
  | v :: vs => heapSet (setByte m p v) (p + 1) vs

/-- `HEAPU8.slice(p, p + n)` / `HEAPU8.subarray(p, p + n)`: read `n` bytes. -/
def heapRead (m : Mem) (p n : Nat) : List Nat :=
  (List.range n).map (fun i => m.heap (p + i))

@[simp] theorem heapSet_allocated (p : Nat) (l : List Nat) (m : Mem) :
    (heapSet m p l).allocated = m.allocated := by
  induction l generalizing m p with
  | nil => rfl
  | cons v vs ih => simp [heapSet, ih, setByte]

@[simp] theorem heapSet_nextFree (p : Nat) (l : List Nat) (m : Mem) :
    (heapSet m p l).nextFree = m.nextFree := by
  induction l generalizing m p with
  | nil => rfl
  | cons v vs ih => simp [heapSet, ih, setByte]

@[simp] theorem heapRead_length (m : Mem) (p n : Nat) :
    (heapRead m p n).length = n := by
  simp [heapRead]

theorem heapSet_heap_lt (m : Mem) (p : Nat) (l : List Nat) (j : Nat) :
    j < p → (heapSet m p l).heap j = m.heap j := by
  induction l generalizing m p with
  | nil => intro _; rfl
  | cons v vs ih =>
      intro h
      simp only [heapSet]
      rw [ih _ _ (Nat.lt_succ_of_lt h)]
      simp [setByte, Nat.ne_of_lt h]

theorem heapSet_heap_ge (m : Mem) (p : Nat) (l : List Nat) (j : Nat) :
    p + l.length ≤ j → (heapSet m p l).heap j = m.heap j := by
  induction l generalizing m p with
  | nil => intro _; rfl
  | cons v vs ih =>
      intro h
      simp only [List.length_cons] at h
      simp only [heapSet]
      rw [ih _ _ (by omega : p + 1 + vs.length ≤ j)]
      have hne : j ≠ p := by omega
      simp [setByte, hne]

/-- Reading back a freshly written run returns exactly the written bytes. -/
theorem heapRead_heapSet (m : Mem) (p : Nat) (l : List Nat) :
    heapRead (heapSet m p l) p l.length = l := by
  induction l generalizing m p with
  | nil => rfl
  | cons v vs ih =>
      simp only [heapSet, List.length_cons, heapRead, List.range_succ_eq_map,
        List.map_cons, List.map_map, List.cons.injEq]
      refine ⟨?_, ?_⟩
      · have hlt : (heapSet (setByte m p v) (p + 1) vs).heap (p + 0) =
            (setByte m p v).heap (p + 0) := heapSet_heap_lt _ _ _ _ (by omega)
        rw [hlt]
        simp [setByte]
      · have h2 := ih (setByte m p v) (p + 1)
        simp only [heapRead] at h2
        calc List.map
              ((fun i => (heapSet (setByte m p v) (p + 1) vs).heap (p + i)) ∘
                Nat.succ) (List.range vs.length)
            = List.map
                (fun i => (heapSet (setByte m p v) (p + 1) vs).heap (p + 1 + i))
                (List.range vs.length) := by
              apply List.map_congr_left
              intro i _
              simp only [Function.comp_apply, Nat.succ_eq_add_one]
              congr 1
              omega
          _ = vs := h2

/-- Errors thrown by the binding. The source wraps engine status codes as
`Error(utils.stringifyError(ret))`; since `stringifyError` only consults the
external engine, we keep the numeric code instead of its rendered text. -/
inductive Err
  | err (msg : String)
  | typeErr (msg : String)
  | engineErr (code : Int)
  deriving DecidableEq, Repr

/-- A codec handle state: in the source this is the pair of the boolean
`this._unsafe` flag and `this._state`, which holds either the retained foreign
address (flag set) or a private `Uint8Array` snapshot (flag clear). -/
inductive HState
  | ptr (p : Nat)
  | snap (bytes : List Nat)
  deriving DecidableEq, Repr

/-- `Encoder.prototype._withState` and `Decoder.prototype._withState`
(identical code): run `op` with the codec state loaded into foreign memory.
With a retained pointer, `op` runs on it directly.  With a snapshot, a scratch
block of the snapshot size is allocated, the snapshot is copied in, `op` runs,
and in a `finally` block the (possibly mutated) bytes are copied back into the
snapshot and the scratch block is freed — also when `op` throws, which we model
by `op` returning `.error` alongside its mutated memory. -/
def withState {α : Type} (st : HState) (op : Nat → Mem → Except Err α × Mem)
    (m : Mem) : Except Err α × HState × Mem :=
  match st with
  | .ptr p =>
      let r := op p m
      (r.1, .ptr p, r.2)
  | .snap bytes =>
      let a := malloc bytes.length m
      let m2 := heapSet a.2 a.1 bytes
      let r := op a.1 m2
      (r.1, .snap (heapRead r.2 a.1 bytes.length), free a.1 r.2)

/-- The scratch memory that the Safe branch of `withState` presents to `op`:
the original memory after the scratch block has been allocated and the
snapshot bytes copied into it (`_malloc` followed by `HEAPU8.set`). -/
def loadedMem (snapshot : List Nat) (m : Mem) : Mem :=
  heapSet (malloc snapshot.length m).2 m.nextFree snapshot

/-- Claim C1: for every Safe-mode handle and every operation run through
`withState`, a fresh scratch block of exactly the snapshot size is allocated
at an address not currently in use, the snapshot bytes are copied in, `op`
runs on that address, the bytes at that address afterwards become the new
snapshot, and the scratch block is absent from the final allocation list —
whatever `op` returned, success or error.  In particular, if `op` itself
leaves the allocation list unchanged (as every engine call does), the final
allocation list equals the initial one: a failing engine call leaks no
temporary state block. -/
theorem withState_safe_frame {α : Type} (snapshot : List Nat)
    (op : Nat → Mem → Except Err α × Mem) (m : Mem) (hwf : m.wf) :
    (m.nextFree ∉ m.allocated.map Prod.fst) ∧
    ((m.nextFree, snapshot.length) ∈ (loadedMem snapshot m).allocated) ∧
    (heapRead (loadedMem snapshot m) m.nextFree snapshot.length = snapshot) ∧
    (withState (.snap snapshot) op m =
      ((op m.nextFree (loadedMem snapshot m)).1,
       .snap (heapRead (op m.nextFree (loadedMem snapshot m)).2
         m.nextFree snapshot.length),
       free m.nextFree (op m.nextFree (loadedMem snapshot m)).2)) ∧
    (m.nextFree ∉
      (free m.nextFree (op m.nextFree (loadedMem snapshot m)).2).allocated.map
        Prod.fst) ∧
    ((op m.nextFree (loadedMem snapshot m)).2.allocated =
        (loadedMem snapshot m).allocated →
      (free m.nextFree (op m.nextFree (loadedMem snapshot m)).2).allocated =
        m.allocated) := by
  refine ⟨?_, ?_, ?_, ?_, ?_, ?_⟩
  · intro hmem
    simp only [List.mem_map] at hmem
    obtain ⟨b, hb, hfst⟩ := hmem
    exact absurd (hfst ▸ hwf b hb) (lt_irrefl _)
  · simp [loadedMem, malloc]
  · exact heapRead_heapSet _ _ _
  · rfl
  · intro hmem
    simp only [free, List.mem_map, List.mem_filter] at hmem
    obtain ⟨b, ⟨_, hb⟩, hfst⟩ := hmem
    rw [hfst] at hb
    simp at hb
  · intro hpres
    have h2 : (op m.nextFree (loadedMem snapshot m)).2.allocated =
        (m.nextFree, snapshot.length) :: m.allocated := by
      rw [hpres]; simp [loadedMem, malloc]
    show List.filter (fun b => b.1 != m.nextFree)
        ((op m.nextFree (loadedMem snapshot m)).2.allocated) = m.allocated
    rw [h2, List.filter_cons]
    simp only [bne_self_eq_false, Bool.false_eq_true, if_false]
    apply List.filter_eq_self.2
    intro b hb
    have := hwf b hb
    simp only [bne_iff_ne, ne_eq]
    omega

/-- Witness for C1 at a concrete snapshot, operation and memory. -/
theorem withState_safe_frame_witness :
    (⟨fun _ => 0, [(0, 5)], 6⟩ : Mem).wf ∧
    ((6 : Nat) ∉ ([(0, 5)] : List (Nat × Nat)).map Prod.fst) := by
  have h := withState_safe_frame (α := Nat) [1, 2]
    (fun p m => (.ok p, m)) ⟨fun _ => 0, [(0, 5)], 6⟩ (by decide)
  exact ⟨by decide, h.1⟩

/-! ## The scratch arena (lib/utils.js)

`pcm_len = 4 * 2 * 120 * 48` and `data_len = 120 * 512`; `p_pcm` and `p_data`
are the results of the two startup `_malloc` calls on the fresh heap. -/

def pcm_len : Nat := 4 * 2 * 120 * 48

def data_len : Nat := 120 * 512

def initialMem : Mem := ⟨fun _ => 0, [], 0⟩

def p_pcm : Nat := (malloc pcm_len initialMem).1

def p_data : Nat := (malloc data_len (malloc pcm_len initialMem).2).1

/-- The heap after both arena allocations: the memory every binding call
starts from. -/
def arenaMem : Mem := (malloc data_len (malloc pcm_len initialMem).2).2

/-- `utils.p_pcm_len`. -/
def p_pcm_len : Nat := pcm_len

/-- `utils.p_data_len`. -/
def p_data_len : Nat := data_len

/-! ## Engine function table

The decode, encode and control functions of the external engine.  A decode
function receives `(p_dec, p_data, data_len, p_pcm, frame_size, decode_fec)`
and the current heap; it returns the sample count per channel (negative for
an error) and the mutated heap. -/

def DecodeFn : Type :=
  Nat → Nat → Nat → Nat → Int → Nat → Mem → Int × Mem

/-- An encode function receives `(p_enc, p_pcm, samples, p_data, max_len)`
and the heap; it returns the packet byte length (negative for an error) and
the mutated heap. -/
def EncodeFn : Type :=
  Nat → Nat → Nat → Nat → Nat → Mem → Int × Mem

/-- `Decoder.prototype._getLastPacketDuration` viewed through its engine
interaction: given the state address and heap it yields the duration of the
last decoded or concealed packet, or throws on a control-query error. -/
def GetDur : Type := Nat → Mem → Except Err Int × Mem

/-! ## Decoder (lib/decoder.js) -/

/-- The `data` argument of `Decoder.prototype._decode`: a JavaScript number
(lost-sample count), a `Buffer` (an opus packet), or any other truthy value
(strings, plain objects, ...), which hits the `TypeError` branch. The whole
argument is optional: `null`/`undefined` is `Option.none`. -/
inductive DecInput
  | num (n : Int)
  | buf (bytes : List Nat)
  | other
  deriving DecidableEq, Repr

/-- The body of `Decoder.prototype._decode` after the `data` value has been
resolved (the code from the `typeof data === 'number'` test to the final
`HEAPU8.slice`), for a decoder with `ch` channels, state at `pDec`, `bps`
bytes per sample and engine decode function `dd`. -/
def decodeBody (ch : Nat) (pDec : Nat) (d : DecInput) (bps : Nat)
    (dd : DecodeFn) (m : Mem) : Except Err (List Nat) × Mem :=
  let finish : Int × Mem → Except Err (List Nat) × Mem := fun call =>
    if call.1 < 0 then (.error (.engineErr call.1), call.2)
    else (.ok (heapRead call.2 p_pcm (call.1.toNat * bps)), call.2)
  match d with
  | .num n =>
      if n * bps > (p_data_len : Int) then
        (.error (.err "too much lost data"), m)
      else
        finish (dd pDec 0 0 p_pcm n 0 m)
  | .buf bytes =>
      if bytes.length > p_data_len then
        (.error (.err "data array too large"), m)
      else
        let m1 := heapSet m p_data bytes
        finish (dd pDec p_data bytes.length p_pcm
          ((p_pcm_len / ch / bps : Nat) : Int) 0 m1)
  | .other => (.error (.typeErr "data must be number, Buffer or null"), m)

/-- `Decoder.prototype._decode`: runs under `_withState`; first evaluates
`data = data || self._getLastPacketDuration(p_dec)` — a falsy `data`
(absent, or the number `0`) is replaced by the duration query result — and
then dispatches on the type of `data`. -/
def Decoder._decode (ch : Nat) (st : HState) (data0 : Option DecInput)
    (bps : Nat) (dd : DecodeFn) (gd : GetDur) (m : Mem) :
    Except Err (List Nat) × HState × Mem :=
  withState st (fun pDec m0 =>
    match data0 with
    | none =>
        let r := gd pDec m0
        match r.1 with
        | .error e => (.error e, r.2)
        | .ok dur => decodeBody ch pDec (.num dur) bps dd r.2
    | some (.num n) =>
        if n = 0 then
          let r := gd pDec m0
          match r.1 with
          | .error e => (.error e, r.2)
          | .ok dur => decodeBody ch pDec (.num dur) bps dd r.2
        else decodeBody ch pDec (.num n) bps dd m0
    | some d => decodeBody ch pDec d bps dd m0) m

/-- Element kinds of the two typed-array sample representations. -/
inductive ElemKind
  | int16
  | float32
  deriving DecidableEq, Repr

/-- `BYTES_PER_ELEMENT`. -/
def ElemKind.width : ElemKind → Nat
  | .int16 => 2
  | .float32 => 4

/-- A JavaScript typed array seen at byte level: its element kind and the
bytes it views.  The element count is the byte length divided by the element
width. -/
structure TypedArray where
  kind : ElemKind
  bytes : List Nat
  deriving DecidableEq, Repr

def TypedArray.length (a : TypedArray) : Nat := a.bytes.length / a.kind.width

/-- A decoder handle: sampling rate, channel count and codec state. -/
structure DecoderH where
  rate : Int
  channels : Nat
  st : HState

/-- `Decoder.prototype.decodeInt16`: `_decode` with 2 bytes per sample and
the engine `_opus_decode`, wrapping the result bytes in an `Int16Array`. -/
def Decoder.decodeInt16 (d : DecoderH) (data : Option DecInput)
    (dd : DecodeFn) (gd : GetDur) (m : Mem) :
    Except Err TypedArray × HState × Mem :=
  let r := Decoder._decode d.channels d.st data 2 dd gd m
  (r.1.map (fun bs => ⟨.int16, bs⟩), r.2)

/-- `Decoder.prototype.decodeFloat32`: `_decode` with 4 bytes per sample and
the engine `_opus_decode_float`, wrapping the result in a `Float32Array`. -/
def Decoder.decodeFloat32 (d : DecoderH) (data : Option DecInput)
    (dd : DecodeFn) (gd : GetDur) (m : Mem) :
    Except Err TypedArray × HState × Mem :=
  let r := Decoder._decode d.channels d.st data 4 dd gd m
  (r.1.map (fun bs => ⟨.float32, bs⟩), r.2)

/-! ## Encoder (lib/encoder.js) -/

/-- An encoder handle: rate, channels, application and codec state. -/
structure EncoderH where
  rate : Int
  channels : Nat
  application : Int
  st : HState

/-- The body of `Encoder.prototype.encode` under `_withState`: dispatches on
the element kind, rejects a pcm array whose byte length exceeds the PCM arena
capacity, writes the samples into the PCM scratch region (`HEAPF32.set` /
`HEAP16.set` write exactly the bytes the typed array views), invokes the
engine encode, and reads the packet back from the packet scratch region. -/
def encodeBody (pcm : TypedArray) (samples : Nat) (pEnc : Nat)
    (doEncode doEncodeFloat : EncodeFn) (m0 : Mem) :
    Except Err (List Nat) × Mem :=
  let finish : Int × Mem → Except Err (List Nat) × Mem := fun call =>
    if call.1 < 0 then (.error (.engineErr call.1), call.2)
    else (.ok (heapRead call.2 p_data call.1.toNat), call.2)
  match pcm.kind with
  | .float32 =>
      if pcm.length * 4 > p_pcm_len then
        (.error (.err "pcm array too large"), m0)
      else
        let m1 := heapSet m0 p_pcm pcm.bytes
        finish (doEncodeFloat pEnc p_pcm samples p_data p_data_len m1)
  | .int16 =>
      if pcm.length * 2 > p_pcm_len then
        (.error (.err "pcm array too large"), m0)
      else
        let m1 := heapSet m0 p_pcm pcm.bytes
        finish (doEncode pEnc p_pcm samples p_data p_data_len m1)

/-- `Encoder.prototype.encode`: computes `samples = pcm.length / channels`
and runs `encodeBody` under `_withState`. -/
def Encoder.encode (e : EncoderH) (pcm : TypedArray)
    (doEncode doEncodeFloat : EncodeFn) (m : Mem) :
    Except Err (List Nat) × HState × Mem :=
  let samples := pcm.length / e.channels
  withState e.st
    (fun pEnc m0 => encodeBody pcm samples pEnc doEncode doEncodeFloat m0) m

/-! ## Construction and destruction -/

/-- Options for `new Decoder(opts)` after the defaults have been merged.
`notSafe` is the source option named after the mode it enables. -/
structure DecOpts where
  rate : Int
  channels : Int
  notSafe : Bool

/-- Options for `new Encoder(opts)` after the defaults have been merged. -/
structure EncOpts where
  rate : Int
  channels : Int
  application : Int
  notSafe : Bool

/-- The `Decoder` constructor: validates channels then rate, allocates the
state block of the engine-reported size, initializes it, and on success
either retains the pointer or snapshots and frees it.  `getSize` embeds
`_opus_decoder_get_size` and `init` embeds `_opus_decoder_init`. -/
def Decoder.make (opts : DecOpts) (getSize : Int → Nat)
    (init : Nat → Int → Int → Mem → Int × Mem) (m : Mem) :
    Except Err DecoderH × Mem :=
  if opts.channels < 1 ∨ opts.channels > 2 then
    (.error (.err "channels must be either 1 or 2"), m)
  else if !(([8000, 12000, 16000, 24000, 48000] : List Int).contains opts.rate)
      then
    (.error (.err "rate can only be 8k, 12k, 16k, 24k or 48k"), m)
  else
    let size := getSize opts.channels
    let a := malloc size m
    let r := init a.1 opts.rate opts.channels a.2
    if r.1 ≠ 0 then
      (.error (.engineErr r.1), free a.1 r.2)
    else if opts.notSafe then
      (.ok ⟨opts.rate, opts.channels.toNat, .ptr a.1⟩, r.2)
    else
      (.ok ⟨opts.rate, opts.channels.toNat, .snap (heapRead r.2 a.1 size)⟩,
       free a.1 r.2)

/-- The `Encoder` constructor: validates channels, rate and application, then
performs the same allocate/init/retain-or-snapshot sequence with
`_opus_encoder_get_size` and `_opus_encoder_init`. -/
def Encoder.make (opts : EncOpts) (getSize : Int → Nat)
    (init : Nat → Int → Int → Int → Mem → Int × Mem) (m : Mem) :
    Except Err EncoderH × Mem :=
  if opts.channels < 1 ∨ opts.channels > 2 then
    (.error (.err "channels must be either 1 or 2"), m)
  else if !(([8000, 12000, 16000, 24000, 48000] : List Int).contains opts.rate)
      then
    (.error (.err "rate can only be 8k, 12k, 16k, 24k or 48k"), m)
  else if opts.application ≠ 2048 ∧ opts.application ≠ 2049 ∧
      opts.application ≠ 2051 then
    (.error (.err "invalid application type"), m)
  else
    let size := getSize opts.channels
    let a := malloc size m
    let r := init a.1 opts.rate opts.channels opts.application a.2
    if r.1 ≠ 0 then
      (.error (.engineErr r.1), free a.1 r.2)
    else if opts.notSafe then
      (.ok ⟨opts.rate, opts.channels.toNat, opts.application, .ptr a.1⟩, r.2)
    else
      (.ok ⟨opts.rate, opts.channels.toNat, opts.application,
            .snap (heapRead r.2 a.1 size)⟩,
       free a.1 r.2)

/-- `Encoder.prototype.destroy` / `Decoder.prototype.destroy` (identical
code): `if (this._unsafe) libopus._free(this._state);` — frees the retained
pointer and does nothing for a snapshot handle. -/
def destroy (st : HState) (m : Mem) : Mem :=
  match st with
  | .ptr p => free p m
  | .snap _ => m

/-! ## Stream adapters -/

/-- Mode selection shared by `EncoderStream` and `DecoderStream`
construction: the strings `'Float32'` and `'Int16'` select the element kind,
anything else throws a `TypeError` synchronously. -/
def streamMode (mode : String) : Except Err ElemKind :=
  if mode = "Float32" then .ok .float32
  else if mode = "Int16" then .ok .int16
  else .error (.typeErr ("mode cannot be " ++ mode))

/-- `EncoderStream.prototype._transform` reinterprets the chunk bytes as a
typed array of the chosen mode: `new this._mode(chunk.buffer,
chunk.byteOffset, chunk.byteLength / BYTES_PER_ELEMENT)` views the first
`⌊byteLength / width⌋` elements of the chunk. -/
def reinterpretBytes (k : ElemKind) (chunk : List Nat) : TypedArray :=
  ⟨k, chunk.take (chunk.length / k.width * k.width)⟩

/-- One `EncoderStream` transform step: reinterpret the chunk and call
`this._encoder.encode`; an exception becomes the per-chunk failure. -/
def EncoderStream.transformOne (k : ElemKind) (e : EncoderH)
    (chunk : List Nat) (doEncode doEncodeFloat : EncodeFn) (m : Mem) :
    Except Err (List Nat) × HState × Mem :=
  Encoder.encode e (reinterpretBytes k chunk) doEncode doEncodeFloat m

/-- Feeding a sequence of chunks through an `EncoderStream`: the transform
contract processes them strictly in order, one at a time, threading the
encoder state and the foreign heap. -/
def EncoderStream.run (k : ElemKind) (rate : Int) (ch : Nat) (app : Int)
    (doEncode doEncodeFloat : EncodeFn) :
    List (List Nat) → HState → Mem →
      List (Except Err (List Nat)) × HState × Mem
  | [], st, m => ([], st, m)
  | c :: cs, st, m =>
      let r := EncoderStream.transformOne k ⟨rate, ch, app, st⟩ c
        doEncode doEncodeFloat m
      let rest := EncoderStream.run k rate ch app doEncode doEncodeFloat cs
        r.2.1 r.2.2
      (r.1 :: rest.1, rest.2)

/-- The decode call a `DecoderStream` makes for one chunk: the bound
`decodeInt16` or `decodeFloat32` of its decoder, on the chunk `Buffer`. -/
def Decoder.decodeByKind (k : ElemKind) (d : DecoderH) (data : Option DecInput)
    (ddInt ddFloat : DecodeFn) (gd : GetDur) (m : Mem) :
    Except Err TypedArray × HState × Mem :=
  match k with
  | .int16 => Decoder.decodeInt16 d data ddInt gd m
  | .float32 => Decoder.decodeFloat32 d data ddFloat gd m

/-- One `DecoderStream` transform step: decode the chunk and convert the
resulting typed array back into its raw byte view
(`Buffer.from(array.buffer, array.byteOffset, array.byteLength)`). -/
def DecoderStream.transformOne (k : ElemKind) (d : DecoderH)
    (chunk : List Nat) (ddInt ddFloat : DecodeFn) (gd : GetDur) (m : Mem) :
    Except Err (List Nat) × HState × Mem :=
  let r := Decoder.decodeByKind k d (some (.buf chunk)) ddInt ddFloat gd m
  (r.1.map TypedArray.bytes, r.2)

/-- Feeding a sequence of chunks through a `DecoderStream`, in order. -/
def DecoderStream.run (k : ElemKind) (rate : Int) (ch : Nat)
    (ddInt ddFloat : DecodeFn) (gd : GetDur) :
    List (List Nat) → HState → Mem →
      List (Except Err (List Nat)) × HState × Mem
  | [], st, m => ([], st, m)
  | c :: cs, st, m =>
      let r := DecoderStream.transformOne k ⟨rate, ch, st⟩ c ddInt ddFloat gd m
      let rest := DecoderStream.run k rate ch ddInt ddFloat gd cs r.2.1 r.2.2
      (r.1 :: rest.1, rest.2)

/-! ## Helper lemmas -/

theorem filter_ne_nextFree (m : Mem) (hwf : m.wf) :
    m.allocated.filter (fun b => b.1 != m.nextFree) = m.allocated := by
  apply List.filter_eq_self.2
  intro b hb
  have := hwf b hb
  simp only [bne_iff_ne, ne_eq]
  omega

theorem free_loaded_allocated (s : List Nat) (m : Mem) (hwf : m.wf) :
    (free m.nextFree (loadedMem s m)).allocated = m.allocated := by
  show List.filter _ (loadedMem s m).allocated = _
  simp only [loadedMem, heapSet_allocated, malloc]
  rw [List.filter_cons]
  simp only [bne_self_eq_false, Bool.false_eq_true, if_false]
  exact filter_ne_nextFree m hwf

/-- When the operation throws before touching the heap, the Safe branch of
`withState` reports the error, restores the snapshot unchanged and releases
the scratch block. -/
theorem withState_snap_of_op_err {α : Type} (s : List Nat) (e : Err)
    (op : Nat → Mem → Except Err α × Mem) (m : Mem) (hwf : m.wf)
    (hop : op m.nextFree (loadedMem s m) = (.error e, loadedMem s m)) :
    (withState (.snap s) op m).1 = .error e ∧
    (withState (.snap s) op m).2.1 = .snap s ∧
    (withState (.snap s) op m).2.2.allocated = m.allocated := by
  have h1 : withState (.snap s) op m =
      ((op m.nextFree (loadedMem s m)).1,
       .snap (heapRead (op m.nextFree (loadedMem s m)).2 m.nextFree s.length),
       free m.nextFree (op m.nextFree (loadedMem s m)).2) := rfl
  rw [h1, hop]
  refine ⟨rfl, ?_, ?_⟩
  · show HState.snap (heapRead (loadedMem s m) m.nextFree s.length) = _
    simp only [loadedMem]
    rw [heapRead_heapSet]
  · exact free_loaded_allocated s m hwf

theorem encodeBody_oversized (pcm : TypedArray)
    (h : pcm.length * pcm.kind.width > p_pcm_len) (samples pEnc : Nat)
    (doE doEF : EncodeFn) (m0 : Mem) :
    encodeBody pcm samples pEnc doE doEF m0 =
      (.error (.err "pcm array too large"), m0) := by
  obtain ⟨kk, bs⟩ := pcm
  cases kk <;> simp_all [encodeBody, ElemKind.width]

theorem decodeBody_buf_oversized (ch pDec : Nat) (bytes : List Nat)
    (h : bytes.length > p_data_len) (bps : Nat) (dd : DecodeFn) (m0 : Mem) :
    decodeBody ch pDec (.buf bytes) bps dd m0 =
      (.error (.err "data array too large"), m0) := by
  simp [decodeBody, h]

/-! ## Claims C5, C8, C10 -/

/-- Claim C5: an encode or decode whose input byte length exceeds the
corresponding arena capacity fails with the size error before any heap write,
for any engine functions whatsoever (the result does not depend on them, so
no engine encode/decode is observed): with a pointer handle the memory is
returned completely untouched, and with a Safe-mode snapshot handle the
snapshot after the failed call equals the snapshot before it and the
allocation list is restored. -/
theorem oversized_input_rejected
    (rate app : Int) (ch : Nat) (snapshot : List Nat) (m : Mem) (hwf : m.wf)
    (pcm : TypedArray) (hpcm : pcm.length * pcm.kind.width > p_pcm_len)
    (bytes : List Nat) (hbuf : bytes.length > p_data_len)
    (doE doEF : EncodeFn) (dd : DecodeFn) (gd : GetDur) (bps : Nat)
    (p : Nat) :
    ((Encoder.encode ⟨rate, ch, app, .snap snapshot⟩ pcm doE doEF m).1 =
        .error (.err "pcm array too large")) ∧
    ((Encoder.encode ⟨rate, ch, app, .snap snapshot⟩ pcm doE doEF m).2.1 =
        .snap snapshot) ∧
    ((Encoder.encode
        ⟨rate, ch, app, .snap snapshot⟩ pcm doE doEF m).2.2.allocated =
        m.allocated) ∧
    (Encoder.encode ⟨rate, ch, app, .ptr p⟩ pcm doE doEF m =
        (.error (.err "pcm array too large"), .ptr p, m)) ∧
    ((Decoder._decode ch (.snap snapshot) (some (.buf bytes)) bps dd gd m).1 =
        .error (.err "data array too large")) ∧
    ((Decoder._decode ch (.snap snapshot) (some (.buf bytes)) bps dd gd m).2.1
        = .snap snapshot) ∧
    ((Decoder._decode ch (.snap snapshot)
        (some (.buf bytes)) bps dd gd m).2.2.allocated = m.allocated) ∧
    (Decoder._decode ch (.ptr p) (some (.buf bytes)) bps dd gd m =
        (.error (.err "data array too large"), .ptr p, m)) := by
  have henc := withState_snap_of_op_err snapshot (.err "pcm array too large")
    (fun pEnc m0 =>
      encodeBody pcm (pcm.length / ch) pEnc doE doEF m0) m hwf
    (encodeBody_oversized pcm hpcm _ _ _ _ _)
  have hdec := withState_snap_of_op_err snapshot (.err "data array too large")
    (fun pDec m0 => decodeBody ch pDec (.buf bytes) bps dd m0) m hwf
    (decodeBody_buf_oversized ch _ bytes hbuf bps dd _)
  refine ⟨henc.1, henc.2.1, henc.2.2, ?_, hdec.1, hdec.2.1, hdec.2.2, ?_⟩
  · show ((encodeBody pcm (pcm.length / ch) p doE doEF m).1, HState.ptr p,
      (encodeBody pcm (pcm.length / ch) p doE doEF m).2) = _
    rw [encodeBody_oversized pcm hpcm]
  · show ((decodeBody ch p (.buf bytes) bps dd m).1, HState.ptr p,
      (decodeBody ch p (.buf bytes) bps dd m).2) = _
    rw [decodeBody_buf_oversized ch p bytes hbuf bps dd m]

/-- Witness for C5: a 23041-element Int16Array (46082 bytes, one byte over
the PCM arena) and a 61441-byte packet (one byte over the packet arena). -/
theorem oversized_input_rejected_witness :
    arenaMem.wf ∧
    (TypedArray.mk .int16 (List.replicate 46082 0)).length *
      (TypedArray.mk .int16 (List.replicate 46082 0)).kind.width > p_pcm_len ∧
    (List.replicate 61441 0).length > p_data_len ∧
    (Encoder.encode ⟨48000, 1, 2049, .snap [7]⟩
        ⟨.int16, List.replicate 46082 0⟩
        (fun _ _ _ _ _ m0 => (0, m0)) (fun _ _ _ _ _ m0 => (0, m0))
        arenaMem).1 = .error (.err "pcm array too large") := by
  have h0 : ∀ l : List Nat, (TypedArray.mk .int16 l).length *
      (TypedArray.mk .int16 l).kind.width = l.length / 2 * 2 := fun _ => rfl
  have hp : (TypedArray.mk .int16 (List.replicate 46082 0)).length *
      (TypedArray.mk .int16 (List.replicate 46082 0)).kind.width >
      p_pcm_len := by
    rw [h0, List.length_replicate]
    decide
  have hb : (List.replicate 61441 (0 : Nat)).length > p_data_len := by
    rw [List.length_replicate]
    decide
  have h := oversized_input_rejected 48000 2049 1 [7] arenaMem (by decide)
    ⟨.int16, List.replicate 46082 0⟩ hp (List.replicate 61441 0) hb
    (fun _ _ _ _ _ m0 => (0, m0)) (fun _ _ _ _ _ m0 => (0, m0))
    (fun _ _ _ _ _ _ m0 => (0, m0)) (fun _ m0 => (.ok 0, m0)) 2 99
  exact ⟨by decide, hp, hb, h.1⟩

/-- Claim C8: `destroy()` on a Safe-mode (snapshot) handle is a no-op on the
foreign heap, repeatable any number of times; on a pointer handle one call
releases exactly the retained block and nothing else, so the block address is
gone from the allocation list afterwards. -/
theorem destroy_by_mode (s : List Nat) (p : Nat) (m : Mem) :
    destroy (.snap s) m = m ∧
    destroy (.snap s) (destroy (.snap s) m) = m ∧
    (destroy (.ptr p) m).allocated =
      m.allocated.filter (fun b => b.1 != p) ∧
    p ∉ (destroy (.ptr p) m).allocated.map Prod.fst := by
  refine ⟨rfl, rfl, rfl, ?_⟩
  intro hmem
  simp only [destroy, free, List.mem_map, List.mem_filter] at hmem
  obtain ⟨b, ⟨_, hb⟩, hfst⟩ := hmem
  rw [hfst] at hb
  simp at hb

/-- Claim C10: the number `0` is falsy in JavaScript, so
`decodeInt16(0)` / `decodeFloat32(0)` is treated exactly like an absent
input — the loss length comes from the last-packet-duration query, not from
a zero-sample concealment: when the query answers `d`, the call behaves as
a decode of `d` lost samples. -/
theorem decode_zero_is_falsy (ch bps : Nat) (st : HState) (dd : DecodeFn)
    (gd : GetDur) (m : Mem) (d : Int) :
    Decoder._decode ch st (some (.num 0)) bps dd gd m =
      Decoder._decode ch st none bps dd gd m ∧
    Decoder._decode ch st (some (.num 0)) bps dd
        (fun _ m0 => (.ok d, m0)) m =
      Decoder._decode ch st (some (.num d)) bps dd
        (fun _ m0 => (.ok d, m0)) m := by
  constructor
  · rfl
  · by_cases hd : d = 0
    · subst hd; rfl
    · simp [Decoder._decode, hd]

/-! ## Claims C2, C3, C4 -/

/-- An engine decode that touches nothing and reports the requested frame
size as the decoded sample count: instrumentation that makes the frame-size
argument of the engine call observable in the result. -/
def probeDecode : DecodeFn := fun _ _ _ _ fs _ m0 => (fs, m0)

/-- Claim C2 fails on the code: the lost-sample guard in
`Decoder.prototype._decode` compares `data * bps` against `utils.p_data_len`
(the packet arena capacity), not against `utils.p_pcm_len` (the PCM arena
capacity).  At `data = 25000`, `bps = 2` the product `50000` exceeds the PCM
arena capacity `46080`, so the claim demands a size error, yet the call
succeeds and the engine is invoked with frame size `25000` (visible through
`probeDecode`, which echoes the frame-size argument: the result is the first
`25000 × 2` bytes of the PCM region). -/
theorem decode_lost_size_check_divergence :
    (25000 * 2 > p_pcm_len) ∧
    ¬(25000 * 2 > p_data_len) ∧
    (Decoder._decode 1 (.ptr 300000) (some (.num 25000)) 2
        probeDecode (fun _ m0 => (.ok 0, m0)) arenaMem).1 =
      .ok (heapRead arenaMem p_pcm 50000) ∧
    (heapRead arenaMem p_pcm 50000).length = 50000 := by
  exact ⟨by decide, by decide, rfl, by simp⟩

/-- Claim C3 fails on the code: a zero-length `Buffer` is truthy in
JavaScript, so `data || self._getLastPacketDuration(p_dec)` keeps the empty
buffer and `_decode` takes the packet branch, calling the engine with the
packet scratch pointer, length `0` and the full `maxFrameSize` cap — the
duration query is never consulted.  Here the query would answer `960`, and
the genuine absent-input path returns `960` samples (`1920` bytes), but the
empty-chunk stream transform returns `maxFrameSize = 23040` samples
(`46080` bytes) instead. -/
theorem decoderStream_empty_chunk_divergence :
    (∃ bs, (DecoderStream.transformOne .int16 ⟨48000, 1, .ptr 300000⟩ []
        probeDecode probeDecode (fun _ m0 => (.ok 960, m0)) arenaMem).1 =
      .ok bs ∧ bs.length = 46080) ∧
    (∃ ta, (Decoder.decodeInt16 ⟨48000, 1, .ptr 300000⟩ none
        probeDecode (fun _ m0 => (.ok 960, m0)) arenaMem).1 =
      .ok ta ∧ ta.bytes.length = 1920) ∧
    (46080 : Nat) ≠ 1920 := by
  refine ⟨⟨_, rfl, ?_⟩, ⟨_, rfl, ?_⟩, by decide⟩
  · simp [probeDecode, p_pcm_len, pcm_len]
  · simp [probeDecode]

/-- Modelled from the spec: the external codec engine (`build/libopus.js`,
generated from the opus C sources, is not under src/).  Its encode produces
a packet whose sample count equals the frame count it was fed; we realize
this by emitting a packet of `frameCount` bytes into the packet region. -/
def specEncode : EncodeFn := fun _ _ frameCount pData _ m0 =>
  ((frameCount : Int), heapSet m0 pData (List.replicate frameCount 1))

/-- Modelled from the spec: the matching engine decode recovers the sample
count of a `specEncode` packet (its length), writes `count × channels`
interleaved samples — `count × ch × bps` bytes — into the PCM region and
returns the per-channel count, as the engine contract prescribes. -/
def specDecode (ch bps : Nat) : DecodeFn := fun _ _ len pPcm _ _ m0 =>
  ((len : Int), heapSet m0 pPcm (List.replicate (len * ch * bps) 0))

set_option maxRecDepth 8000 in
/-- Claim C4 fails on the code for stereo: `_decode` reads back
`ret * bps` bytes where the engine wrote `ret` samples *per channel*, i.e.
`ret * channels * bps` bytes — the `× channels` factor is missing.  Encoding
a 240-element interleaved stereo Int16 frame (120 samples per channel, 2.5ms
at 48kHz) against the spec-modelled engine yields a 120-sample packet, and
decoding it on a matching stereo decoder returns a typed array of only 120
elements instead of the 240 the claim requires. -/
theorem roundTrip_stereo_halved :
    (TypedArray.mk .int16 (List.replicate 480 0)).length = 240 ∧
    (Encoder.encode ⟨48000, 2, 2049, .ptr 200000⟩
        ⟨.int16, List.replicate 480 0⟩ specEncode specEncode arenaMem).1 =
      .ok (List.replicate 120 1) ∧
    (∃ ta,
      (Decoder.decodeInt16 ⟨48000, 2, .ptr 210000⟩
          (some (.buf (List.replicate 120 1))) (specDecode 2 2)
          (fun _ m0 => (.ok 0, m0))
          (Encoder.encode ⟨48000, 2, 2049, .ptr 200000⟩
            ⟨.int16, List.replicate 480 0⟩ specEncode specEncode
            arenaMem).2.2).1 = .ok ta ∧
      ta.length = 120 ∧ ta.length ≠ 240) := by
  refine ⟨rfl, rfl, ⟨_, rfl, ?_, ?_⟩⟩
  · show (heapRead _ p_pcm _).length / 2 = 120
    simp [specDecode]
  · show (heapRead _ p_pcm _).length / 2 ≠ 240
    simp [specDecode]

/-! ## Claim C6 -/

theorem decodeBody_buf_ok (ch pDec : Nat) (bytes : List Nat) (bps : Nat)
    (dd : DecodeFn) (m0 : Mem) (hlen : ¬(bytes.length > p_data_len)) :
    decodeBody ch pDec (.buf bytes) bps dd m0 =
      (if (dd pDec p_data bytes.length p_pcm
            ((p_pcm_len / ch / bps : Nat) : Int) 0
            (heapSet m0 p_data bytes)).1 < 0
       then (.error (.engineErr (dd pDec p_data bytes.length p_pcm
              ((p_pcm_len / ch / bps : Nat) : Int) 0
              (heapSet m0 p_data bytes)).1),
             (dd pDec p_data bytes.length p_pcm
              ((p_pcm_len / ch / bps : Nat) : Int) 0
              (heapSet m0 p_data bytes)).2)
       else (.ok (heapRead (dd pDec p_data bytes.length p_pcm
              ((p_pcm_len / ch / bps : Nat) : Int) 0
              (heapSet m0 p_data bytes)).2 p_pcm
              ((dd pDec p_data bytes.length p_pcm
                ((p_pcm_len / ch / bps : Nat) : Int) 0
                (heapSet m0 p_data bytes)).1.toNat * bps)),
             (dd pDec p_data bytes.length p_pcm
              ((p_pcm_len / ch / bps : Nat) : Int) 0
              (heapSet m0 p_data bytes)).2)) := by
  simp only [decodeBody, if_neg hlen]

/-- Claim C6: for every decoder (either mode) and every packet whose length
fits the packet arena, `_decode` writes the packet bytes into the packet
scratch region, invokes the engine decode on the state address with the
packet address and length and the output cap
`maxFrameSize = p_pcm_len / channels / bps`, and, when the engine returns a
non-negative sample count `n`, returns exactly the first `n × bps` bytes of
the PCM scratch region (a negative return becomes the translated engine
error). -/
theorem decode_packet_path (ch bps : Nat) (st : HState) (bytes : List Nat)
    (dd : DecodeFn) (gd : GetDur) (m : Mem)
    (hlen : bytes.length ≤ p_data_len) :
    ∃ pDec mIn,
      heapRead mIn p_data bytes.length = bytes ∧
      (0 ≤ (dd pDec p_data bytes.length p_pcm
          ((p_pcm_len / ch / bps : Nat) : Int) 0 mIn).1 →
        (Decoder._decode ch st (some (.buf bytes)) bps dd gd m).1 =
          .ok (heapRead
            (dd pDec p_data bytes.length p_pcm
              ((p_pcm_len / ch / bps : Nat) : Int) 0 mIn).2 p_pcm
            ((dd pDec p_data bytes.length p_pcm
              ((p_pcm_len / ch / bps : Nat) : Int) 0 mIn).1.toNat * bps))) ∧
      ((dd pDec p_data bytes.length p_pcm
          ((p_pcm_len / ch / bps : Nat) : Int) 0 mIn).1 < 0 →
        (Decoder._decode ch st (some (.buf bytes)) bps dd gd m).1 =
          .error (.engineErr (dd pDec p_data bytes.length p_pcm
            ((p_pcm_len / ch / bps : Nat) : Int) 0 mIn).1)) := by
  have hlen2 : ¬(bytes.length > p_data_len) := by omega
  cases st with
  | ptr p =>
      refine ⟨p, heapSet m p_data bytes, ?_, ?_, ?_⟩
      · exact heapRead_heapSet m p_data bytes
      · intro hge
        show (decodeBody ch p (.buf bytes) bps dd m).1 = _
        rw [decodeBody_buf_ok ch p bytes bps dd m hlen2,
          if_neg (Int.not_lt.mpr hge)]
      · intro hlt
        show (decodeBody ch p (.buf bytes) bps dd m).1 = _
        rw [decodeBody_buf_ok ch p bytes bps dd m hlen2, if_pos hlt]
  | snap s =>
      refine ⟨m.nextFree, heapSet (loadedMem s m) p_data bytes, ?_, ?_, ?_⟩
      · exact heapRead_heapSet (loadedMem s m) p_data bytes
      · intro hge
        show (decodeBody ch m.nextFree (.buf bytes) bps dd
          (loadedMem s m)).1 = _
        rw [decodeBody_buf_ok ch m.nextFree bytes bps dd (loadedMem s m)
          hlen2, if_neg (Int.not_lt.mpr hge)]
      · intro hlt
        show (decodeBody ch m.nextFree (.buf bytes) bps dd
          (loadedMem s m)).1 = _
        rw [decodeBody_buf_ok ch m.nextFree bytes bps dd (loadedMem s m)
          hlen2, if_pos hlt]

/-- Witness for C6 at a concrete packet, decoder and engine. -/
theorem decode_packet_path_witness :
    ([1, 2, 3] : List Nat).length ≤ p_data_len ∧
    (∃ pDec mIn,
      heapRead mIn p_data ([1, 2, 3] : List Nat).length = [1, 2, 3] ∧
      (0 ≤ (probeDecode pDec p_data ([1, 2, 3] : List Nat).length p_pcm
          ((p_pcm_len / 1 / 2 : Nat) : Int) 0 mIn).1 →
        (Decoder._decode 1 (.ptr 7) (some (.buf [1, 2, 3])) 2 probeDecode
          (fun _ m0 => (.ok 0, m0)) arenaMem).1 =
          .ok (heapRead
            (probeDecode pDec p_data ([1, 2, 3] : List Nat).length p_pcm
              ((p_pcm_len / 1 / 2 : Nat) : Int) 0 mIn).2 p_pcm
            ((probeDecode pDec p_data ([1, 2, 3] : List Nat).length p_pcm
              ((p_pcm_len / 1 / 2 : Nat) : Int) 0 mIn).1.toNat * 2))) ∧
      ((probeDecode pDec p_data ([1, 2, 3] : List Nat).length p_pcm
          ((p_pcm_len / 1 / 2 : Nat) : Int) 0 mIn).1 < 0 →
        (Decoder._decode 1 (.ptr 7) (some (.buf [1, 2, 3])) 2 probeDecode
          (fun _ m0 => (.ok 0, m0)) arenaMem).1 =
          .error (.engineErr (probeDecode pDec p_data
            ([1, 2, 3] : List Nat).length p_pcm
            ((p_pcm_len / 1 / 2 : Nat) : Int) 0 mIn).1))) :=
  ⟨by decide,
   decode_packet_path 1 2 (.ptr 7) [1, 2, 3] probeDecode
     (fun _ m0 => (.ok 0, m0)) arenaMem (by decide)⟩

/-! ## Claim C7 -/

/-- Claim C7: for every integer channel count outside \x7b1, 2\x7d, both
constructors throw the channel error before any engine interaction (the
result, with the memory unchanged, does not depend on the engine functions);
for channel counts 1 and 2 with a whitelisted rate, a valid application and
an engine whose init reports success, construction succeeds. -/
theorem construction_channel_validation
    (rate app : Int) (chn : Int) (ns : Bool)
    (gsD : Int → Nat) (initD : Nat → Int → Int → Mem → Int × Mem)
    (gsE : Int → Nat) (initE : Nat → Int → Int → Int → Mem → Int × Mem)
    (m : Mem) :
    (chn ≠ 1 → chn ≠ 2 →
      Decoder.make ⟨rate, chn, ns⟩ gsD initD m =
        (.error (.err "channels must be either 1 or 2"), m) ∧
      Encoder.make ⟨rate, chn, app, ns⟩ gsE initE m =
        (.error (.err "channels must be either 1 or 2"), m)) ∧
    ((chn = 1 ∨ chn = 2) →
      (([8000, 12000, 16000, 24000, 48000] : List Int).contains rate)
        = true →
      (app = 2048 ∨ app = 2049 ∨ app = 2051) →
      (∀ q r c m0, (initD q r c m0).1 = 0) →
      (∀ q r c a m0, (initE q r c a m0).1 = 0) →
      ((Decoder.make ⟨rate, chn, ns⟩ gsD initD m).1.isOk = true ∧
       (Encoder.make ⟨rate, chn, app, ns⟩ gsE initE m).1.isOk = true)) := by
  constructor
  · intro h1 h2
    have hc : chn < 1 ∨ chn > 2 := by omega
    constructor
    · simp only [Decoder.make, if_pos hc]
    · simp only [Encoder.make, if_pos hc]
  · intro hch hrate happ hiD hiE
    have hc : ¬(chn < 1 ∨ chn > 2) := by omega
    have happ2 : ¬(app ≠ 2048 ∧ app ≠ 2049 ∧ app ≠ 2051) := by
      rcases happ with h | h | h <;> simp [h]
    constructor
    · have h0 := hiD (malloc (gsD chn) m).1 rate chn (malloc (gsD chn) m).2
      simp only [Decoder.make, if_neg hc, hrate, Bool.not_true,
        Bool.false_eq_true, if_false, h0, ne_eq, not_true_eq_false,
        not_false_eq_true]
      cases ns <;> simp [Except.isOk, Except.toBool]
    · have h0 := hiE (malloc (gsE chn) m).1 rate chn app
        (malloc (gsE chn) m).2
      simp only [Encoder.make, if_neg hc, hrate, Bool.not_true,
        Bool.false_eq_true, if_false, if_neg happ2, h0, ne_eq,
        not_true_eq_false, not_false_eq_true]
      cases ns <;> simp [Except.isOk, Except.toBool]

/-- Witness for C7: channel count 0 is rejected, channel count 1 accepted. -/
theorem construction_channel_validation_witness :
    ((0 : Int) ≠ 1) ∧ ((0 : Int) ≠ 2) ∧
    (Decoder.make ⟨48000, 0, false⟩ (fun _ => 4) (fun _ _ _ m0 => (0, m0))
        arenaMem = (.error (.err "channels must be either 1 or 2"),
          arenaMem)) ∧
    (Encoder.make ⟨48000, 0, 2049, false⟩ (fun _ => 4)
        (fun _ _ _ _ m0 => (0, m0)) arenaMem =
      (.error (.err "channels must be either 1 or 2"), arenaMem)) ∧
    (Decoder.make ⟨48000, 1, false⟩ (fun _ => 4) (fun _ _ _ m0 => (0, m0))
        arenaMem).1.isOk = true ∧
    (Encoder.make ⟨48000, 1, 2049, false⟩ (fun _ => 4)
        (fun _ _ _ _ m0 => (0, m0)) arenaMem).1.isOk = true := by
  have hA := (construction_channel_validation 48000 2049 0 false
    (fun _ => 4) (fun _ _ _ m0 => (0, m0)) (fun _ => 4)
    (fun _ _ _ _ m0 => (0, m0)) arenaMem).1 (by decide) (by decide)
  have hB := (construction_channel_validation 48000 2049 1 false
    (fun _ => 4) (fun _ _ _ m0 => (0, m0)) (fun _ => 4)
    (fun _ _ _ _ m0 => (0, m0)) arenaMem).2 (Or.inl rfl) (by decide)
    (Or.inr (Or.inl rfl)) (fun _ _ _ _ => rfl) (fun _ _ _ _ _ => rfl)
  exact ⟨by decide, by decide, hA.1, hA.2, hB.1, hB.2⟩

/-! ## Claim C9 -/

theorem encoderStream_run_length (k : ElemKind) (rate : Int) (ch : Nat)
    (app : Int) (doE doEF : EncodeFn) :
    ∀ (chunks : List (List Nat)) (st : HState) (m : Mem),
      (EncoderStream.run k rate ch app doE doEF chunks st m).1.length =
        chunks.length := by
  intro chunks
  induction chunks with
  | nil => intro st m; rfl
  | cons c cs ih =>
      intro st m
      simp only [EncoderStream.run, List.length_cons]
      rw [ih]

theorem decoderStream_run_length (k : ElemKind) (rate : Int) (ch : Nat)
    (ddInt ddFloat : DecodeFn) (gd : GetDur) :
    ∀ (chunks : List (List Nat)) (st : HState) (m : Mem),
      (DecoderStream.run k rate ch ddInt ddFloat gd chunks st m).1.length =
        chunks.length := by
  intro chunks
  induction chunks with
  | nil => intro st m; rfl
  | cons c cs ih =>
      intro st m
      simp only [DecoderStream.run, List.length_cons]
      rw [ih]

theorem encoderStream_run_get (k : ElemKind) (rate : Int) (ch : Nat)
    (app : Int) (doE doEF : EncodeFn) :
    ∀ (chunks : List (List Nat)) (st : HState) (m : Mem) (i : Nat)
      (c : List Nat), chunks[i]? = some c →
      (EncoderStream.run k rate ch app doE doEF chunks st m).1[i]? =
        some (Encoder.encode
          ⟨rate, ch, app,
            (EncoderStream.run k rate ch app doE doEF (chunks.take i) st
              m).2.1⟩
          (reinterpretBytes k c) doE doEF
          (EncoderStream.run k rate ch app doE doEF (chunks.take i) st
            m).2.2).1 := by
  intro chunks
  induction chunks with
  | nil => intro st m i c h; simp at h
  | cons hd tl ih =>
      intro st m i c h
      cases i with
      | zero =>
          simp only [List.getElem?_cons_zero, Option.some.injEq] at h
          subst h
          simp only [List.take_zero, EncoderStream.run,
            EncoderStream.transformOne, List.getElem?_cons_zero]
      | succ n =>
          simp only [List.getElem?_cons_succ] at h
          simp only [List.take_succ_cons, EncoderStream.run,
            List.getElem?_cons_succ]
          exact ih _ _ n c h

theorem decoderStream_run_get (k : ElemKind) (rate : Int) (ch : Nat)
    (ddInt ddFloat : DecodeFn) (gd : GetDur) :
    ∀ (chunks : List (List Nat)) (st : HState) (m : Mem) (i : Nat)
      (c : List Nat), chunks[i]? = some c →
      (DecoderStream.run k rate ch ddInt ddFloat gd chunks st m).1[i]? =
        some ((Decoder.decodeByKind k
          ⟨rate, ch,
            (DecoderStream.run k rate ch ddInt ddFloat gd (chunks.take i) st
              m).2.1⟩
          (some (.buf c)) ddInt ddFloat gd
          (DecoderStream.run k rate ch ddInt ddFloat gd (chunks.take i) st
            m).2.2).1.map TypedArray.bytes) := by
  intro chunks
  induction chunks with
  | nil => intro st m i c h; simp at h
  | cons hd tl ih =>
      intro st m i c h
      cases i with
      | zero =>
          simp only [List.getElem?_cons_zero, Option.some.injEq] at h
          subst h
          simp only [List.take_zero, DecoderStream.run,
            DecoderStream.transformOne, List.getElem?_cons_zero]
      | succ n =>
          simp only [List.getElem?_cons_succ] at h
          simp only [List.take_succ_cons, DecoderStream.run,
            List.getElem?_cons_succ]
          exact ih _ _ n c h

/-- Claim C9: a stream adapter built with a mode string other than
`'Int16'` or `'Float32'` fails synchronously with the `TypeError`; running
any chunk sequence through an adapter yields exactly one output per chunk,
in order, and the i-th output is exactly what the direct call — `encode` on
the chunk bytes reinterpreted in the chosen mode, or the bound
`decodeInt16`/`decodeFloat32` on the chunk, its result viewed as raw bytes —
produces in the state reached after the first i chunks. -/
theorem stream_adapter_refinement :
    (∀ mode : String, mode ≠ "Float32" → mode ≠ "Int16" →
      streamMode mode = .error (.typeErr ("mode cannot be " ++ mode))) ∧
    (∀ (k : ElemKind) (rate : Int) (ch : Nat) (app : Int)
      (doE doEF : EncodeFn) (chunks : List (List Nat)) (st : HState)
      (m : Mem),
      (EncoderStream.run k rate ch app doE doEF chunks st m).1.length =
        chunks.length) ∧
    (∀ (k : ElemKind) (rate : Int) (ch : Nat) (app : Int)
      (doE doEF : EncodeFn) (chunks : List (List Nat)) (st : HState)
      (m : Mem) (i : Nat) (c : List Nat), chunks[i]? = some c →
      (EncoderStream.run k rate ch app doE doEF chunks st m).1[i]? =
        some (Encoder.encode
          ⟨rate, ch, app,
            (EncoderStream.run k rate ch app doE doEF (chunks.take i) st
              m).2.1⟩
          (reinterpretBytes k c) doE doEF
          (EncoderStream.run k rate ch app doE doEF (chunks.take i) st
            m).2.2).1) ∧
    (∀ (k : ElemKind) (rate : Int) (ch : Nat) (ddInt ddFloat : DecodeFn)
      (gd : GetDur) (chunks : List (List Nat)) (st : HState) (m : Mem),
      (DecoderStream.run k rate ch ddInt ddFloat gd chunks st m).1.length =
        chunks.length) ∧
    (∀ (k : ElemKind) (rate : Int) (ch : Nat) (ddInt ddFloat : DecodeFn)
      (gd : GetDur) (chunks : List (List Nat)) (st : HState) (m : Mem)
      (i : Nat) (c : List Nat), chunks[i]? = some c →
      (DecoderStream.run k rate ch ddInt ddFloat gd chunks st m).1[i]? =
        some ((Decoder.decodeByKind k
          ⟨rate, ch,
            (DecoderStream.run k rate ch ddInt ddFloat gd (chunks.take i) st
              m).2.1⟩
          (some (.buf c)) ddInt ddFloat gd
          (DecoderStream.run k rate ch ddInt ddFloat gd (chunks.take i) st
            m).2.2).1.map TypedArray.bytes)) := by
  refine ⟨?_, ?_, ?_, ?_, ?_⟩
  · intro mode h1 h2
    simp [streamMode, h1, h2]
  · intro k rate ch app doE doEF chunks st m
    exact encoderStream_run_length k rate ch app doE doEF chunks st m
  · intro k rate ch app doE doEF chunks st m i c h
    exact encoderStream_run_get k rate ch app doE doEF chunks st m i c h
  · intro k rate ch ddInt ddFloat gd chunks st m
    exact decoderStream_run_length k rate ch ddInt ddFloat gd chunks st m
  · intro k rate ch ddInt ddFloat gd chunks st m i c h
    exact decoderStream_run_get k rate ch ddInt ddFloat gd chunks st m i c h

/-- Witness for C9: the mode string asd is rejected, and a two-chunk run
through an Int16 encoder stream produces its first output as the direct
encode of the first chunk. -/
theorem stream_adapter_refinement_witness :
    ("asd" : String) ≠ "Float32" ∧ ("asd" : String) ≠ "Int16" ∧
    streamMode "asd" = .error (.typeErr ("mode cannot be " ++ "asd")) ∧
    (([[1, 2], [3, 4]] : List (List Nat))[0]? = some [1, 2]) ∧
    (EncoderStream.run .int16 48000 1 2049 (fun _ _ _ _ _ m0 => (0, m0))
        (fun _ _ _ _ _ m0 => (0, m0)) [[1, 2], [3, 4]] (.ptr 7)
        arenaMem).1.length = 2 ∧
    (EncoderStream.run .int16 48000 1 2049 (fun _ _ _ _ _ m0 => (0, m0))
        (fun _ _ _ _ _ m0 => (0, m0)) [[1, 2], [3, 4]] (.ptr 7)
        arenaMem).1[0]? =
      some (Encoder.encode
        ⟨48000, 1, 2049,
          (EncoderStream.run .int16 48000 1 2049 (fun _ _ _ _ _ m0 => (0, m0))
            (fun _ _ _ _ _ m0 => (0, m0)) (([[1, 2], [3, 4]] :
              List (List Nat)).take 0) (.ptr 7) arenaMem).2.1⟩
        (reinterpretBytes .int16 [1, 2]) (fun _ _ _ _ _ m0 => (0, m0))
        (fun _ _ _ _ _ m0 => (0, m0))
        (EncoderStream.run .int16 48000 1 2049 (fun _ _ _ _ _ m0 => (0, m0))
          (fun _ _ _ _ _ m0 => (0, m0)) (([[1, 2], [3, 4]] :
            List (List Nat)).take 0) (.ptr 7) arenaMem).2.2).1 := by
  refine ⟨by decide, by decide, ?_, by decide, ?_, ?_⟩
  · exact stream_adapter_refinement.1 "asd" (by decide) (by decide)
  · exact stream_adapter_refinement.2.1 .int16 48000 1 2049
      (fun _ _ _ _ _ m0 => (0, m0)) (fun _ _ _ _ _ m0 => (0, m0))
      [[1, 2], [3, 4]] (.ptr 7) arenaMem
  · exact stream_adapter_refinement.2.2.1 .int16 48000 1 2049
      (fun _ _ _ _ _ m0 => (0, m0)) (fun _ _ _ _ _ m0 => (0, m0))
      [[1, 2], [3, 4]] (.ptr 7) arenaMem 0 [1, 2] (by decide)

end Libopus
